import Mathlib

/-!
Verification of the GraphWave structural-embedding generator
(`stellargraph/mapper/graphwave_generator.py`) against its specification.

The Python code manipulates numpy/tensorflow arrays.  We embed them as
dimension-carrying tensors over `ℝ`: a tensor is a tuple of its shape and a
total entry function (entries outside the shape are irrelevant junk, exactly
like memory outside a numpy view).  Floating-point numbers are modelled by
real numbers where transcendental functions occur (`exp`, `log`, `sqrt`,
`cos`, `sin`) and by rationals where the code branches on comparisons
(eigenvalue filtering), since comparison of concrete machine floats is exact.
-/

noncomputable section

/-- A rank-1 real tensor: a length and an entry function. -/
structure T1 where
  d0 : ℕ
  e : ℕ → ℝ

/-- A rank-2 real tensor (matrix): two dimensions and an entry function. -/
structure T2 where
  d0 : ℕ
  d1 : ℕ
  e : ℕ → ℕ → ℝ

/-- A rank-3 real tensor: three dimensions and an entry function. -/
structure T3 where
  d0 : ℕ
  d1 : ℕ
  d2 : ℕ
  e : ℕ → ℕ → ℕ → ℝ

/-- The shape of a rank-2 tensor, as numpy's `.shape` reports it. -/
def T2.shape (t : T2) : ℕ × ℕ := (t.d0, t.d1)

/-- The shape of a rank-3 tensor. -/
def T3.shape (t : T3) : ℕ × ℕ × ℕ := (t.d0, t.d1, t.d2)

/-- `np.diag(d)` restricted to the first `k` diagonal entries: a `k × k`
diagonal matrix. -/
def npDiag (k : ℕ) (d : ℕ → ℝ) : T2 :=
  ⟨k, k, fun i j => if i = j then d i else 0⟩

/-- numpy matrix product `a.dot(b)` (`(a.d0 × a.d1) · (b.d0 × b.d1)`,
contracting `a`'s columns with `b`'s rows). -/
def matDot (a b : T2) : T2 :=
  ⟨a.d0, b.d1, fun i j => ∑ l ∈ Finset.range a.d1, a.e i l * b.e l j⟩

/-- The message of the `ValueError` numpy raises for `np.dstack([])`. -/
def npDstackEmptyMsg : String := "need at least one array to concatenate"

/-- `np.dstack`: raises `ValueError` on an empty list, otherwise stacks the
equally-shaped matrices along a new third axis (the leading two dimensions
are those of the first matrix). -/
def dstack (ms : List T2) : Except String T3 :=
  match ms with
  | [] => .error npDstackEmptyMsg
  | m :: rest =>
    .ok ⟨m.d0, m.d1, (m :: rest).length,
      fun i j s => (((m :: rest).getD s ⟨0, 0, fun _ _ => 0⟩).e i j)⟩

/-- The wavelet-coefficient cache `self.Ues` of `GraphWaveGenerator.__init__`:
the tensor
`np.dstack([eigen_vecs.dot(np.diag(np.exp(-s * eigen_vals))) for s in scales])`
returns when `scales` is nonempty (`dstack_ues_ok` below); on an empty scale
list `np.dstack` raises instead and the constructor fails (see
`constructUes`), so no cache object with empty scales ever exists. -/
def UesTensor (N k : ℕ) (U : ℕ → ℕ → ℝ) (lam : ℕ → ℝ) (scales : List ℝ) : T3 :=
  ⟨((scales.map (fun s => matDot ⟨N, k, U⟩
      (npDiag k (fun j => Real.exp (-s * lam j))))).headD ⟨0, 0, fun _ _ => 0⟩).d0,
   ((scales.map (fun s => matDot ⟨N, k, U⟩
      (npDiag k (fun j => Real.exp (-s * lam j))))).headD ⟨0, 0, fun _ _ => 0⟩).d1,
   (scales.map (fun s => matDot ⟨N, k, U⟩
      (npDiag k (fun j => Real.exp (-s * lam j))))).length,
   fun i j s => (((scales.map (fun s => matDot ⟨N, k, U⟩
      (npDiag k (fun j => Real.exp (-s * lam j))))).getD s
        ⟨0, 0, fun _ _ => 0⟩).e i j)⟩

/-- `tf.einsum("ijk,j->ik", t, v)`: contract the middle axis of a rank-3
tensor with a vector.  The result has the first and third dimensions of
`t`. -/
def einsum_ijk_j (t : T3) (v : ℕ → ℝ) : T2 :=
  ⟨t.d0, t.d2, fun i s => ∑ j ∈ Finset.range t.d1, t.e i j s * v j⟩

/-- The per-node sample tensor fed to the characteristic-function sampler in
`flow`: `tf.einsum("ijk,j->ik", self.Ues, x)` where `x = eigen_vecs[idx]` is
the queried node's eigenvector row. -/
def nodeSampleTensor (N k : ℕ) (U : ℕ → ℕ → ℝ) (lam : ℕ → ℝ) (scales : List ℝ)
    (idx : ℕ) : T2 :=
  einsum_ijk_j (UesTensor N k U lam scales) (fun j => U idx j)

/-- `samples * ts` after `K.expand_dims(samples, 0)` (shape `(1, ns, S)`) and
`K.expand_dims(K.expand_dims(ts, 1))` (shape `(m, 1, 1)`): broadcasting gives
the `(m, ns, S)` tensor with entry `samples[i, s] * ts[t]`. -/
def tPsi (samples : T2) (ts : List ℝ) : T3 :=
  ⟨ts.length, samples.d0, samples.d1, fun t i s => samples.e i s * ts.getD t 0⟩

/-- Elementwise `tf.math.cos`. -/
def cosT3 (t : T3) : T3 :=
  ⟨t.d0, t.d1, t.d2, fun a b c => Real.cos (t.e a b c)⟩

/-- Elementwise `tf.math.sin`. -/
def sinT3 (t : T3) : T3 :=
  ⟨t.d0, t.d1, t.d2, fun a b c => Real.sin (t.e a b c)⟩

/-- `tf.math.reduce_mean(·, axis=1)` on a rank-3 tensor. -/
def reduceMeanAxis1 (t : T3) : T2 :=
  ⟨t.d0, t.d2, fun a c => (∑ b ∈ Finset.range t.d1, t.e a b c) / (t.d1 : ℝ)⟩

/-- `tf.concat([x, y], axis=0)` on rank-2 tensors. -/
def concatAxis0 (x y : T2) : T2 :=
  ⟨x.d0 + y.d0, x.d1, fun r s => if r < x.d0 then x.e r s else y.e (r - x.d0) s⟩

/-- `K.flatten`: row-major flattening of a rank-2 tensor. -/
def T2.flatten (t : T2) : T1 :=
  ⟨t.d0 * t.d1, fun p => t.e (p / t.d1) (p % t.d1)⟩

/-- `mean_cos_t_psi` of `_empirical_characteristic_function`. -/
def meanCosTPsi (samples : T2) (ts : List ℝ) : T2 :=
  reduceMeanAxis1 (cosT3 (tPsi samples ts))

/-- `mean_sin_t_psi` of `_empirical_characteristic_function`. -/
def meanSinTPsi (samples : T2) (ts : List ℝ) : T2 :=
  reduceMeanAxis1 (sinT3 (tPsi samples ts))

/-- `_empirical_characteristic_function(samples, ts)`:
`K.flatten(tf.concat([mean_cos_t_psi, mean_sin_t_psi], axis=0))`. -/
def empirical_characteristic_function (samples : T2) (ts : List ℝ) : T1 :=
  (concatAxis0 (meanCosTPsi samples ts) (meanSinTPsi samples ts)).flatten

/-! ## Scale selection (`__init__`, lines 64-74) -/

/-- The message of the `ValueError` numpy raises for
`empty_array.min()`. -/
def npEmptyMinMsg : String :=
  "zero-size array to reduction operation minimum which has no identity"

/-- `min_scale = -np.log(0.95) / np.sqrt(eN * e2)`. -/
def minScale (eN e2 : ℚ) : ℝ :=
  -Real.log 0.95 / Real.sqrt ((eN : ℝ) * (e2 : ℝ))

/-- `max_scale = -np.log(0.85) / np.sqrt(eN * e2)`. -/
def maxScale (eN e2 : ℚ) : ℝ :=
  -Real.log 0.85 / Real.sqrt ((eN : ℝ) * (e2 : ℝ))

/-- `np.linspace(a, b, n)` with the default `endpoint=True`: `n` evenly spaced
values; for `n ≥ 2` the step is `(b - a)/(n - 1)` and the last value is `b`,
for `n = 1` numpy returns just `[a]`. -/
def linspace (a b : ℝ) (n : ℕ) : List ℝ :=
  (List.range n).map (fun (i : ℕ) =>
    if n = 1 then a else a + (i : ℝ) * (b - a) / ((n : ℝ) - 1))

/-- The `scales` constructor argument: the string `"auto"` or an explicit
sequence of floats. -/
inductive ScalesArg where
  | auto : ScalesArg
  | explicit (l : List ℝ) : ScalesArg

/-- The automatic branch of `__init__`:
`e2 = eigen_vals[eigen_vals > 0].min()` (raising numpy's empty-reduction
`ValueError` when no eigenvalue is strictly positive),
`eN = eigen_vals.max()`, then `np.linspace(min_scale, max_scale, num_scales)`.
Eigenvalues are concrete float values, embedded as rationals so the
comparison `> 0` is exact. -/
def autoScales (lam : List ℚ) (numScales : ℕ) : Except String (List ℝ) :=
  match (lam.filter (fun x => decide (0 < x))).min?, lam.max? with
  | some e2, some eN => .ok (linspace (minScale eN e2) (maxScale eN e2) numScales)
  | _, _ => .error npEmptyMinMsg

/-- `if scales == "auto": ... else: self.scales = scales` — the explicit
branch stores the caller's sequence verbatim. -/
def selectScales (lam : List ℚ) (s : ScalesArg) (numScales : ℕ) :
    Except String (List ℝ) :=
  match s with
  | .auto => autoScales lam numScales
  | .explicit l => .ok l

/-- Scale selection followed by the wavelet-coefficient cache build: the
`self.Ues` the constructor ends with, or the construction error (either from
scale selection or from `np.dstack` on an empty scale list). -/
def constructUes (N k : ℕ) (U : ℕ → ℕ → ℝ) (lam : List ℚ) (s : ScalesArg)
    (numScales : ℕ) : Except String T3 :=
  (selectScales lam s numScales).bind
    (fun sc => dstack (sc.map (fun scale => matDot ⟨N, k, U⟩
      (npDiag k (fun j => Real.exp (-scale * ((lam.getD j 0 : ℚ) : ℝ)))))))

/-! ## Node-type check (`__init__`, lines 34-45) -/

/-- The `TypeError` message of the multiple-node-type check. -/
def multipleTypesMsg : String :=
  "GraphWaveGenerator: node generator requires graph with single node type; a graph with multiple node types is passed. Stopping."

/-- The `IndexError` message Python raises for `node_types[0]` on an empty
list. -/
def emptyIndexMsg : String := "list index out of range"

/-- `node_types = list(G.node_types); if len(node_types) > 1: raise ...;`
followed by the `node_types[0]` subscript used to pick the single type. -/
def checkNodeTypes (nodeTypes : List String) : Except String String :=
  if 1 < nodeTypes.length then .error multipleTypesMsg
  else
    match nodeTypes with
    | [] => .error emptyIndexMsg
    | t :: _ => .ok t

/-! ## Laplacian (`__init__`, lines 53-55) -/

/-- `np.array(adj.sum(1)).flatten()`: the vector of row sums of the adjacency
matrix. -/
def rowSums {n : ℕ} (A : Matrix (Fin n) (Fin n) ℝ) : Fin n → ℝ :=
  fun i => ∑ j, A i j

/-- `degree_mat = diags(row sums); laplacian = degree_mat - adj`. -/
def laplacian {n : ℕ} (A : Matrix (Fin n) (Fin n) ℝ) : Matrix (Fin n) (Fin n) ℝ :=
  Matrix.diagonal (rowSums A) - A

/-! ## Node-id lookup and `flow` (lines 48-51 and 86-129) -/

/-- The `TypeError` message Python raises when `np.vectorize(dict.get,
otypes=[np.int64])` meets a missing key: `dict.get` returns `None` and the
cast of `None` to `int64` fails.  The message does not mention the key. -/
def npInt64CastNoneMsg : String :=
  "int() argument must be a string, a bytes-like object or a number, not 'NoneType'"

/-- `node_index_dict.get`: first-match lookup in an association list. -/
def dictGet : List (String × ℕ) → String → Option ℕ
  | [], _ => none
  | (k, v) :: rest, key => if k == key then some v else dictGet rest key

/-- `self._node_lookup(node_ids)`: the vectorized `dict.get` with
`otypes=[np.int64]`, which raises on the first unresolvable id. -/
def nodeLookup (d : List (String × ℕ)) : List String → Except String (List ℕ)
  | [] => .ok []
  | id :: rest =>
    match dictGet d id with
    | none => .error npInt64CastNoneMsg
    | some i => (nodeLookup d rest).map (fun l => i :: l)

/-- The generator state once `__init__` has finished: node count, number of
eigenvectors, the eigenvector matrix and the wavelet-coefficient cache. -/
structure GraphWaveGenerator where
  numNodes : ℕ
  numEigenvecs : ℕ
  eigenVecs : ℕ → ℕ → ℝ
  Ues : T3

/-- The per-node transform pipeline of `flow`: the einsum contraction of the
cache with the node's eigenvector row, then
`_empirical_characteristic_function`. -/
def gwTransform (g : GraphWaveGenerator) (ts : List ℝ) (x : ℕ → ℝ) : T1 :=
  empirical_characteristic_function (einsum_ijk_j g.Ues x) ts

/-- The message of the `InvalidArgumentError` tensorflow raises for
`Dataset.batch(0)`. -/
def tfBatchErrMsg : String := "Batch size must be greater than zero"

/-- `Dataset.batch(bs)` for a positive batch size `bs`: split a list into
consecutive chunks of size `bs` (the last chunk may be shorter).
`Dataset.batch(0)` raises instead — that check lives in `flow`, which guards
this function with it. -/
def batchList {α : Type} (bs : ℕ) (l : List α) : List (List α) :=
  if h1 : bs = 0 then []
  else if h2 : l.length = 0 then []
  else l.take bs :: batchList bs (l.drop bs)
termination_by l.length
decreasing_by
  rw [List.length_drop]
  exact Nat.sub_lt (Nat.pos_of_ne_zero h2) (Nat.pos_of_ne_zero h1)

/-- A `tf.data.Dataset` of batches as `flow` returns it: finite when
`repeat=False`, an infinite batch stream when `repeat=True`. -/
inductive FlowResult where
  | finite (batches : List (List T1)) : FlowResult
  | infinite (batchStream : ℕ → List T1) : FlowResult

/-- One full pass of embeddings, in `node_ids` order: the eigenvector rows
gathered by `eigen_vecs[node_lookup(node_ids)]` mapped through the two
`dataset.map` stages. -/
def onePassEmb (g : GraphWaveGenerator) (ts : List ℝ) (idxs : List ℕ) : List T1 :=
  (idxs.map (fun i => fun j => g.eigenVecs i j)).map (gwTransform g ts)

/-- `GraphWaveGenerator.flow(node_ids, sample_points, batch_size, repeat)`
for the `targets=None` path.  The id lookup and the gathering of eigenvector
rows happen eagerly (numpy indexing before `from_tensor_slices`); the
`.cache()` call only memoizes and does not change the element sequence;
`.batch(batch_size)` raises `InvalidArgumentError` for a zero batch size and
otherwise groups, and `.repeat()` wraps the batched pass around
indefinitely. -/
def flow (g : GraphWaveGenerator) (d : List (String × ℕ)) (ids : List String)
    (ts : List ℝ) (bs : ℕ) (rpt : Bool) : Except String FlowResult :=
  match nodeLookup d ids with
  | .error e => .error e
  | .ok idxs =>
      if bs = 0 then .error tfBatchErrMsg
      else
        let batches := batchList bs (onePassEmb g ts idxs)
        .ok (if rpt then .infinite (fun n => batches.getD (n % batches.length) [])
             else .finite batches)

/-- A concrete one-node generator used by witnesses: `N = k = 1`, zero
eigenvector matrix, one scale. -/
def gExample : GraphWaveGenerator :=
  ⟨1, 1, fun _ _ => 0, UesTensor 1 1 (fun _ _ => 0) (fun _ => 0) [1]⟩

/-- The all-ones 2×2 adjacency matrix, witness input for C8. -/
def symMat2 : Matrix (Fin 2) (Fin 2) ℝ := Matrix.of fun _ _ => 1

/-- Boolean prefix test on character lists, used to formalise "the error
message names the id". -/
def prefixOfB : List Char → List Char → Bool
  | [], _ => true
  | _ :: _, [] => false
  | a :: as, b :: bs => a == b && prefixOfB as bs

/-- Boolean substring test on character lists: `substrOfB pat s` is true when
`pat` occurs contiguously inside `s`. -/
def substrOfB (pat : List Char) : List Char → Bool
  | [] => prefixOfB pat []
  | b :: rest => prefixOfB pat (b :: rest) || substrOfB pat rest

/-! ## Helper lemmas -/

theorem batchList_flatten_aux {α : Type} (bs : ℕ) (hbs : bs ≠ 0) :
    ∀ n (l : List α), l.length ≤ n → (batchList bs l).flatten = l := by
  intro n
  induction n with
  | zero =>
    intro l hl
    have h0 : l = [] := List.length_eq_zero.mp (Nat.le_zero.mp hl)
    subst h0
    rw [batchList]
    simp [hbs]
  | succ n ih =>
    intro l hl
    rw [batchList]
    by_cases h2 : l.length = 0
    · have h0 : l = [] := List.length_eq_zero.mp h2
      subst h0
      simp [hbs]
    · simp only [hbs, h2, dite_false]
      rw [List.flatten_cons, ih (l.drop bs) (by rw [List.length_drop]; omega)]
      exact List.take_append_drop bs l

/-- Concatenating the batches of `Dataset.batch` restores the element
sequence. -/
theorem batchList_flatten {α : Type} (bs : ℕ) (hbs : bs ≠ 0) (l : List α) :
    (batchList bs l).flatten = l :=
  batchList_flatten_aux bs hbs l.length l le_rfl

/-- The vectorized lookup raises the `None`-to-`int64` cast `TypeError` as
soon as any queried id is absent from the index mapping. -/
theorem nodeLookup_error_of_missing (d : List (String × ℕ)) (ids : List String)
    (h : ∃ id ∈ ids, dictGet d id = none) :
    nodeLookup d ids = .error npInt64CastNoneMsg := by
  induction ids with
  | nil => simp at h
  | cons a rest ih =>
    rw [nodeLookup]
    cases ha : dictGet d a with
    | none => rfl
    | some i =>
      obtain ⟨id, hmem, hnone⟩ := h
      rcases List.mem_cons.mp hmem with rfl | hr
      · rw [ha] at hnone
        exact absurd hnone (by simp)
      · rw [ih ⟨id, hr, hnone⟩]
        rfl

/-- A successful vectorized lookup returns one index per queried id. -/
theorem nodeLookup_ok_length (d : List (String × ℕ)) (ids : List String)
    (idxs : List ℕ) (h : nodeLookup d ids = .ok idxs) :
    idxs.length = ids.length := by
  induction ids generalizing idxs with
  | nil =>
    rw [nodeLookup] at h
    cases h
    rfl
  | cons a rest ih =>
    rw [nodeLookup] at h
    cases ha : dictGet d a with
    | none => rw [ha] at h; cases h
    | some i =>
      rw [ha] at h
      cases hr : nodeLookup d rest with
      | error e => rw [hr] at h; cases h
      | ok l =>
        rw [hr] at h
        cases h
        simp [ih l hr]

/-- The vectorized lookup succeeds when every queried id resolves. -/
theorem nodeLookup_ok_of_present (d : List (String × ℕ)) (ids : List String)
    (h : ∀ id ∈ ids, (dictGet d id).isSome) :
    ∃ idxs, nodeLookup d ids = .ok idxs := by
  induction ids with
  | nil => exact ⟨[], rfl⟩
  | cons a rest ih =>
    obtain ⟨i, hi⟩ := Option.isSome_iff_exists.mp (h a (List.mem_cons_self a rest))
    obtain ⟨idxs, hidxs⟩ := ih (fun id hid => h id (List.mem_cons_of_mem a hid))
    refine ⟨i :: idxs, ?_⟩
    rw [nodeLookup, hi, hidxs]
    rfl

/-- Reading one full period of the repeating batch stream reproduces the
batch list. -/
theorem range_map_mod_getD {α : Type} (batches : List (List α)) :
    (List.range batches.length).map
      (fun n => batches.getD (n % batches.length) []) = batches := by
  apply List.ext_getElem
  · simp
  · intro i h1 h2
    simp only [List.getElem_map, List.getElem_range]
    rw [Nat.mod_eq_of_lt (by simpa using h2)]
    exact List.getD_eq_getElem batches [] (by simpa using h2)

/-- Reading two full periods of the repeating batch stream reproduces the
element sequence twice. -/
theorem repeat_two_passes {α : Type} (batches : List (List α)) :
    ((List.range (2 * batches.length)).map
       (fun n => batches.getD (n % batches.length) [])).flatten
      = batches.flatten ++ batches.flatten := by
  rw [two_mul, List.range_add, List.map_append, List.flatten_append]
  congr 1
  · rw [range_map_mod_getD]
  · rw [List.map_map]
    have hco : ((fun n => batches.getD (n % batches.length) []) ∘
        (batches.length + ·)) = fun n => batches.getD (n % batches.length) [] := by
      funext n
      simp [Function.comp, Nat.add_mod_left]
    rw [hco, range_map_mod_getD]

theorem linspace_length (a b : ℝ) (n : ℕ) : (linspace a b n).length = n := by
  simp [linspace]

theorem linspace_getD (a b : ℝ) (n i : ℕ) (hn : 2 ≤ n) (hi : i < n) :
    (linspace a b n).getD i 0 = a + (i : ℝ) * (b - a) / ((n : ℝ) - 1) := by
  have hlen : i < ((List.range n).map (fun (i : ℕ) =>
      if n = 1 then a else a + (i : ℝ) * (b - a) / ((n : ℝ) - 1))).length := by
    simpa using hi
  rw [linspace, List.getD_eq_getElem _ _ hlen]
  simp only [List.getElem_map, List.getElem_range]
  rw [if_neg (by omega)]

/-- `.min()` of a nonempty float array returns its least element (rationals
model the float values exactly). -/
theorem rat_min?_spec (l : List ℚ) (a : ℚ) (h : l.min? = some a) :
    a ∈ l ∧ ∀ b ∈ l, a ≤ b :=
  (@List.min?_eq_some_iff ℚ _ _ _ ⟨fun h h' => le_antisymm h h'⟩
    (fun _ => le_refl _) (fun a b => min_choice a b)
    (fun _ _ _ => le_min_iff) l).mp h

/-- `.max()` of a nonempty float array returns its greatest element. -/
theorem rat_max?_spec (l : List ℚ) (a : ℚ) (h : l.max? = some a) :
    a ∈ l ∧ ∀ b ∈ l, b ≤ a :=
  (@List.max?_eq_some_iff ℚ _ _ _ ⟨fun h h' => le_antisymm h h'⟩
    (fun _ => le_refl _) (fun a b => max_choice a b)
    (fun _ _ _ => max_le_iff) l).mp h

theorem rat_min?_exists (l : List ℚ) (h : l ≠ []) : ∃ a, l.min? = some a := by
  cases hm : l.min? with
  | none => exact absurd (List.min?_eq_none_iff.mp hm) h
  | some a => exact ⟨a, rfl⟩

theorem rat_max?_exists (l : List ℚ) (h : l ≠ []) : ∃ a, l.max? = some a := by
  cases hm : l.max? with
  | none => exact absurd (List.max?_eq_none_iff.mp hm) h
  | some a => exact ⟨a, rfl⟩

/-- Inner contraction of a row of `U` with a diagonal matrix: entry `(i, j)`
of `U.dot(np.diag(d))` is `U i j * d j`. -/
theorem matDot_diag_e (N k : ℕ) (U : ℕ → ℕ → ℝ) (d : ℕ → ℝ) (i j : ℕ)
    (hj : j < k) :
    (matDot ⟨N, k, U⟩ (npDiag k d)).e i j = U i j * d j := by
  simp only [matDot, npDiag]
  rw [Finset.sum_eq_single j]
  · simp
  · intro l _ hne
    simp [hne]
  · intro hj'
    exact absurd (Finset.mem_range.mpr hj) hj'

/-- For a nonempty scale list, `np.dstack` succeeds and its value is the
cache tensor `UesTensor`. -/
theorem dstack_ues_ok (N k : ℕ) (U : ℕ → ℕ → ℝ) (lam : ℕ → ℝ)
    (scales : List ℝ) (hs : scales ≠ []) :
    dstack (scales.map (fun s => matDot ⟨N, k, U⟩
        (npDiag k (fun j => Real.exp (-s * lam j))))) =
      .ok (UesTensor N k U lam scales) := by
  cases scales with
  | nil => exact absurd rfl hs
  | cons s0 rest => rfl

/-- With all ids resolvable and a positive batch size, `flow` returns the
batched (and, when repeating, periodically repeated) embedding pass. -/
theorem flow_ok (g : GraphWaveGenerator) (d : List (String × ℕ))
    (ids : List String) (ts : List ℝ) (bs : ℕ) (rpt : Bool) (idxs : List ℕ)
    (h : nodeLookup d ids = .ok idxs) (hbs : bs ≠ 0) :
    flow g d ids ts bs rpt = .ok
      (if rpt then
        FlowResult.infinite (fun n =>
          (batchList bs (onePassEmb g ts idxs)).getD
            (n % (batchList bs (onePassEmb g ts idxs)).length) [])
       else FlowResult.finite (batchList bs (onePassEmb g ts idxs))) := by
  unfold flow
  rw [h]
  show (if bs = 0 then (Except.error tfBatchErrMsg : Except String FlowResult)
    else Except.ok
      (if rpt then
        FlowResult.infinite (fun n =>
          (batchList bs (onePassEmb g ts idxs)).getD
            (n % (batchList bs (onePassEmb g ts idxs)).length) [])
       else FlowResult.finite (batchList bs (onePassEmb g ts idxs)))) = _
  rw [if_neg hbs]

/-! ## Claim theorems -/

/-- C1, counterexample: on a 3-node graph with `k = 1` eigenvector and one
scale, the per-node sample tensor `einsum("ijk,j->ik", Ues, u)` has shape
`(3, 1)` — `(N, num_scales)` — and not the claimed `(k, num_scales) =
(1, 1)`. -/
theorem c1_counterexample :
    (nodeSampleTensor 3 1 (fun _ _ => 0) (fun _ => 0) [(1 : ℝ)] 0).shape = (3, 1) ∧
    ((3, 1) : ℕ × ℕ) ≠ (1, 1) :=
  ⟨rfl, by decide⟩

/-- C1 (amended): for every queried node, the sample tensor fed to the
characteristic-function sampler — the contraction of the `(N, k, num_scales)`
cache with the node's length-`k` eigenvector row over the eigenvector
(middle) axis — has shape `(N, num_scales)`: `N` draws per scale, one per
graph node, entry `(i, s)` being `Σ_j U i j · exp(-scale_s · λ_j) · U idx j`,
the `i`-th coordinate of column `idx` of `U·exp(-sΛ)·Uᵀ`. -/
theorem c1_sample_tensor_shape (N k : ℕ) (U : ℕ → ℕ → ℝ) (lam : ℕ → ℝ)
    (scales : List ℝ) (idx : ℕ) (hs : scales ≠ []) :
    (nodeSampleTensor N k U lam scales idx).shape = (N, scales.length) ∧
    ∀ i s, i < N → s < scales.length →
      (nodeSampleTensor N k U lam scales idx).e i s =
        ∑ j ∈ Finset.range k,
          U i j * Real.exp (-(scales.getD s 0) * lam j) * U idx j := by
  constructor
  · have hd0 : (UesTensor N k U lam scales).d0 = N := by
      cases scales with
      | nil => exact absurd rfl hs
      | cons s0 rest => rfl
    have hd2 : (UesTensor N k U lam scales).d2 = scales.length := by
      simp [UesTensor]
    show ((UesTensor N k U lam scales).d0, (UesTensor N k U lam scales).d2) =
      (N, scales.length)
    rw [hd0, hd2]
  · intro i s hi hslen
    have hd1 : (UesTensor N k U lam scales).d1 = k := by
      cases scales with
      | nil => exact absurd rfl hs
      | cons s0 rest => rfl
    show ∑ j ∈ Finset.range (UesTensor N k U lam scales).d1,
        (UesTensor N k U lam scales).e i j s * U idx j = _
    rw [hd1]
    apply Finset.sum_congr rfl
    intro j hj
    have hjk := Finset.mem_range.mp hj
    have hUe : (UesTensor N k U lam scales).e i j s =
        U i j * Real.exp (-(scales.getD s 0) * lam j) := by
      show ((scales.map (fun sc => matDot ⟨N, k, U⟩
          (npDiag k (fun j => Real.exp (-sc * lam j))))).getD s
          ⟨0, 0, fun _ _ => 0⟩).e i j = _
      rw [List.getD_eq_getElem _ _ (by simpa using hslen), List.getElem_map]
      rw [matDot_diag_e N k U _ i j hjk]
      rw [List.getD_eq_getElem scales 0 hslen]
    rw [hUe]

/-- Witness for C1 at `N = 2`, `k = 1`, one scale. -/
theorem c1_sample_tensor_shape_witness :
    ([(1 : ℝ)] ≠ []) ∧
    ((nodeSampleTensor 2 1 (fun _ _ => 0) (fun _ => 0) [(1 : ℝ)] 0).shape =
        (2, [(1 : ℝ)].length) ∧
      ∀ i s, i < 2 → s < [(1 : ℝ)].length →
        (nodeSampleTensor 2 1 (fun _ _ => 0) (fun _ => 0) [(1 : ℝ)] 0).e i s =
          ∑ j ∈ Finset.range 1,
            (fun _ _ => (0 : ℝ)) i j *
              Real.exp (-([(1 : ℝ)].getD s 0) * (fun _ => (0 : ℝ)) j) *
              (fun _ _ => (0 : ℝ)) 0 j) :=
  ⟨List.cons_ne_nil 1 [],
   c1_sample_tensor_shape 2 1 (fun _ _ => 0) (fun _ => 0) [(1 : ℝ)] 0
     (List.cons_ne_nil 1 [])⟩

/-- C2: for every sample tensor and sample points `ts`, the embedding
produced by `_empirical_characteristic_function` is a flat vector of length
`2 · |ts| · num_scales` — independent of the node (of the `ns` axis) — whose
first `|ts| · num_scales` entries are the flattened mean-cosine block and
whose last `|ts| · num_scales` entries are the flattened mean-sine block
(stacked along the sample-point axis, not interleaved). -/
theorem c2_embedding_length (samples : T2) (ts : List ℝ) :
    (empirical_characteristic_function samples ts).d0 =
      2 * ts.length * samples.d1 ∧
    (∀ p, p < ts.length * samples.d1 →
      (empirical_characteristic_function samples ts).e p =
        (meanCosTPsi samples ts).flatten.e p) ∧
    (∀ p, p < ts.length * samples.d1 →
      (empirical_characteristic_function samples ts).e
          (ts.length * samples.d1 + p) =
        (meanSinTPsi samples ts).flatten.e p) := by
  refine ⟨?_, ?_, ?_⟩
  · show (ts.length + ts.length) * samples.d1 = 2 * ts.length * samples.d1
    ring
  · intro p hp
    have hS : 0 < samples.d1 := by
      rcases Nat.eq_zero_or_pos samples.d1 with h | h
      · rw [h, Nat.mul_zero] at hp
        exact absurd hp (Nat.not_lt_zero p)
      · exact h
    have expand : (empirical_characteristic_function samples ts).e p =
        if p / samples.d1 < ts.length
        then (meanCosTPsi samples ts).e (p / samples.d1) (p % samples.d1)
        else (meanSinTPsi samples ts).e (p / samples.d1 - ts.length)
          (p % samples.d1) := rfl
    rw [expand, if_pos ((Nat.div_lt_iff_lt_mul hS).mpr hp)]
    rfl
  · intro p hp
    have hS : 0 < samples.d1 := by
      rcases Nat.eq_zero_or_pos samples.d1 with h | h
      · rw [h, Nat.mul_zero] at hp
        exact absurd hp (Nat.not_lt_zero p)
      · exact h
    have h1 : (ts.length * samples.d1 + p) / samples.d1 =
        ts.length + p / samples.d1 := by
      rw [add_comm, mul_comm, Nat.add_mul_div_left _ _ hS, add_comm]
    have h2 : (ts.length * samples.d1 + p) % samples.d1 = p % samples.d1 := by
      rw [mul_comm, Nat.mul_add_mod]
    have expand : (empirical_characteristic_function samples ts).e
        (ts.length * samples.d1 + p) =
        if (ts.length * samples.d1 + p) / samples.d1 < ts.length
        then (meanCosTPsi samples ts).e
          ((ts.length * samples.d1 + p) / samples.d1)
          ((ts.length * samples.d1 + p) % samples.d1)
        else (meanSinTPsi samples ts).e
          ((ts.length * samples.d1 + p) / samples.d1 - ts.length)
          ((ts.length * samples.d1 + p) % samples.d1) := rfl
    rw [expand, h1, h2,
      if_neg (Nat.not_lt.mpr (Nat.le_add_right ts.length (p / samples.d1))),
      Nat.add_sub_cancel_left]
    rfl

/-- Witness for C2 at a `(1, 1)` sample tensor and one sample point. -/
theorem c2_embedding_length_witness :
    ((0 : ℕ) < [(0 : ℝ)].length * (T2.mk 1 1 fun _ _ => 0).d1) ∧
    (empirical_characteristic_function ⟨1, 1, fun _ _ => 0⟩ [(0 : ℝ)]).e 0 =
      (meanCosTPsi ⟨1, 1, fun _ _ => 0⟩ [(0 : ℝ)]).flatten.e 0 ∧
    (empirical_characteristic_function ⟨1, 1, fun _ _ => 0⟩ [(0 : ℝ)]).e
        ([(0 : ℝ)].length * (T2.mk 1 1 fun _ _ => 0).d1 + 0) =
      (meanSinTPsi ⟨1, 1, fun _ _ => 0⟩ [(0 : ℝ)]).flatten.e 0 :=
  ⟨by decide,
   (c2_embedding_length ⟨1, 1, fun _ _ => 0⟩ [(0 : ℝ)]).2.1 0 (by decide),
   (c2_embedding_length ⟨1, 1, fun _ _ => 0⟩ [(0 : ℝ)]).2.2 0 (by decide)⟩

/-- C3, counterexample: with the single eigenvalue 1 and `num_scales = 1`,
`np.linspace(min_scale, max_scale, 1)` is `[min_scale]`, which does not
contain the endpoint `max_scale` (the two scale bounds differ because
`ln 0.95 ≠ ln 0.85`), so the produced values are not inclusive of both
endpoints. -/
theorem c3_counterexample :
    selectScales [(1 : ℚ)] .auto 1 = .ok [minScale 1 1] ∧
    maxScale 1 1 ∉ [minScale 1 1] := by
  constructor
  · rfl
  · have hlt : Real.log 0.85 < Real.log 0.95 :=
      Real.log_lt_log (by norm_num) (by norm_num)
    simp only [List.mem_singleton, minScale, maxScale]
    rw [Rat.cast_one, one_mul, Real.sqrt_one, div_one, div_one]
    exact fun h => absurd (neg_injective h) (ne_of_lt hlt)

/-- C3 (amended): when `scales="auto"` and `num_scales ≥ 2`, construction
takes `e2` as the smallest strictly-positive eigenvalue and `eN` as the
largest eigenvalue, and produces exactly `num_scales` evenly spaced values
from `min_scale = -ln(0.95)/sqrt(eN·e2)` to `max_scale = -ln(0.85)/sqrt(eN·e2)`,
inclusive of both endpoints.  (When `num_scales = 1` numpy's `linspace`
returns only `min_scale`.) -/
theorem c3_auto_scales (lam : List ℚ) (n : ℕ) (hn : 2 ≤ n)
    (hpos : ∃ x ∈ lam, 0 < x) :
    ∃ e2 eN l,
      e2 ∈ lam ∧ 0 < e2 ∧ (∀ x ∈ lam, 0 < x → e2 ≤ x) ∧
      eN ∈ lam ∧ (∀ x ∈ lam, x ≤ eN) ∧
      selectScales lam .auto n = .ok l ∧
      l.length = n ∧
      l.getD 0 0 = minScale eN e2 ∧
      l.getD (n - 1) 0 = maxScale eN e2 ∧
      ∀ i, i + 1 < n →
        l.getD (i + 1) 0 - l.getD i 0 =
          (maxScale eN e2 - minScale eN e2) / ((n : ℝ) - 1) := by
  obtain ⟨x, hxmem, hx0⟩ := hpos
  have hxf : x ∈ lam.filter (fun y => decide (0 < y)) :=
    List.mem_filter.mpr ⟨hxmem, by simpa using hx0⟩
  obtain ⟨e2, he2⟩ := rat_min?_exists _ (List.ne_nil_of_mem hxf)
  obtain ⟨he2f, he2min⟩ := rat_min?_spec _ e2 he2
  have he2mem : e2 ∈ lam := (List.mem_filter.mp he2f).1
  have he2pos : (0 : ℚ) < e2 := by
    have := (List.mem_filter.mp he2f).2
    simpa using this
  obtain ⟨eN, heN⟩ := rat_max?_exists lam (List.ne_nil_of_mem he2mem)
  obtain ⟨heNmem, heNmax⟩ := rat_max?_spec lam eN heN
  refine ⟨e2, eN, linspace (minScale eN e2) (maxScale eN e2) n,
    he2mem, he2pos, ?_, heNmem, heNmax, ?_, linspace_length _ _ n, ?_, ?_, ?_⟩
  · intro y hy hy0
    exact he2min y (List.mem_filter.mpr ⟨hy, by simpa using hy0⟩)
  · show autoScales lam n = _
    unfold autoScales
    rw [he2, heN]
  · rw [linspace_getD _ _ n 0 hn (by omega)]
    simp
  · rw [linspace_getD _ _ n (n - 1) hn (by omega)]
    have hne : ((n : ℝ) - 1) ≠ 0 := by
      have h2 : (2 : ℝ) ≤ (n : ℝ) := by exact_mod_cast hn
      linarith
    have hcast : ((n - 1 : ℕ) : ℝ) = (n : ℝ) - 1 := by
      rw [Nat.cast_sub (by omega), Nat.cast_one]
    rw [hcast]
    field_simp
  · intro i hi
    rw [linspace_getD _ _ n (i + 1) hn hi, linspace_getD _ _ n i hn (by omega)]
    push_cast
    ring

/-- Witness for C3 with eigenvalue list `[1]` and `num_scales = 2`. -/
theorem c3_auto_scales_witness :
    (2 ≤ 2) ∧ (∃ x ∈ [(1 : ℚ)], 0 < x) ∧
    (∃ e2 eN l,
      e2 ∈ [(1 : ℚ)] ∧ 0 < e2 ∧ (∀ x ∈ [(1 : ℚ)], 0 < x → e2 ≤ x) ∧
      eN ∈ [(1 : ℚ)] ∧ (∀ x ∈ [(1 : ℚ)], x ≤ eN) ∧
      selectScales [(1 : ℚ)] .auto 2 = .ok l ∧
      l.length = 2 ∧
      l.getD 0 0 = minScale eN e2 ∧
      l.getD (2 - 1) 0 = maxScale eN e2 ∧
      ∀ i, i + 1 < 2 →
        l.getD (i + 1) 0 - l.getD i 0 =
          (maxScale eN e2 - minScale eN e2) / ((2 : ℝ) - 1)) :=
  ⟨by decide, by decide, c3_auto_scales [(1 : ℚ)] 2 (by decide) (by decide)⟩

/-- C4: when `scales="auto"` and no eigenvalue is strictly positive, the
filtered array `eigen_vals[eigen_vals > 0]` is empty and its `.min()` raises
numpy's empty-reduction `ValueError`; no scale values are produced. -/
theorem c4_no_positive_eigenvalue (lam : List ℚ) (n : ℕ)
    (h : ∀ x ∈ lam, x ≤ 0) :
    selectScales lam .auto n = .error npEmptyMinMsg := by
  have hfil : lam.filter (fun y => decide (0 < y)) = [] :=
    List.filter_eq_nil_iff.mpr
      (fun a ha => by simpa using not_lt.mpr (h a ha))
  show autoScales lam n = _
  unfold autoScales
  rw [hfil]
  cases hmax : lam.max? <;> rfl

/-- Witness for C4 with eigenvalues `[0, -2]`. -/
theorem c4_no_positive_eigenvalue_witness :
    (∀ x ∈ [(0 : ℚ), -2], x ≤ 0) ∧
    selectScales [(0 : ℚ), -2] .auto 3 = .error npEmptyMinMsg :=
  ⟨by decide, c4_no_positive_eigenvalue [(0 : ℚ), -2] 3 (by decide)⟩

/-- C5: construction fails whenever the node-type list is empty (the
`node_types[0]` subscript raises `IndexError`) and whenever it has more than
one element (the explicit `TypeError` check). -/
theorem c5_node_type_check (nodeTypes : List String)
    (h : nodeTypes.length = 0 ∨ 1 < nodeTypes.length) :
    ∃ e, checkNodeTypes nodeTypes = .error e := by
  rcases h with h | h
  · have h0 : nodeTypes = [] := List.length_eq_zero.mp h
    subst h0
    exact ⟨emptyIndexMsg, rfl⟩
  · refine ⟨multipleTypesMsg, ?_⟩
    unfold checkNodeTypes
    rw [if_pos h]

/-- Witness for C5 at the empty node-type list. -/
theorem c5_node_type_check_witness :
    (([] : List String).length = 0 ∨ 1 < ([] : List String).length) ∧
    ∃ e, checkNodeTypes [] = .error e :=
  ⟨Or.inl rfl, c5_node_type_check [] (Or.inl rfl)⟩

/-- C6, counterexample: querying the id `"missing"` against a mapping that
only holds `"a"` makes `flow` raise — but the raised error is numpy's generic
`None`-to-`int64` cast `TypeError`, whose message does not contain the
unresolvable id. -/
theorem c6_counterexample :
    flow gExample [("a", 0)] ["missing"] [] 1 true = .error npInt64CastNoneMsg ∧
    substrOfB "missing".toList npInt64CastNoneMsg.toList = false :=
  ⟨rfl, rfl⟩

/-- C6 (amended): if `flow` is called with a node id absent from the node
index mapping, a lookup error is raised — the `TypeError` from casting
`dict.get`'s `None` to `int64` — so the call never silently produces an
embedding for that id; the error message, however, is the generic cast
failure and does not name the id. -/
theorem c6_lookup_error (g : GraphWaveGenerator) (d : List (String × ℕ))
    (ids : List String) (ts : List ℝ) (bs : ℕ) (rpt : Bool)
    (h : ∃ id ∈ ids, dictGet d id = none) :
    flow g d ids ts bs rpt = .error npInt64CastNoneMsg := by
  unfold flow
  rw [nodeLookup_error_of_missing d ids h]

/-- Witness for C6 with the mapping `{"a": 0}` and the query `["b"]`. -/
theorem c6_lookup_error_witness :
    (∃ id ∈ ["b"], dictGet [("a", 0)] id = none) ∧
    flow gExample [("a", 0)] ["b"] [] 1 true = .error npInt64CastNoneMsg :=
  ⟨by decide, c6_lookup_error gExample [("a", 0)] ["b"] [] 1 true (by decide)⟩

/-- C7: with `repeat=True` the batch stream is periodic — it restarts from
the beginning after each full pass — and flattening two full periods yields
the one-pass embedding sequence twice concatenated; with `repeat=False` the
result is finite, exactly one full pass in `node_ids` order, one embedding
per queried id. -/
theorem c7_repeat_semantics (g : GraphWaveGenerator) (d : List (String × ℕ))
    (ids : List String) (ts : List ℝ) (bs : ℕ) (idxs : List ℕ)
    (hbs : bs ≠ 0) (h : nodeLookup d ids = .ok idxs) :
    (∃ batches, flow g d ids ts bs false = .ok (.finite batches) ∧
      batches.flatten = onePassEmb g ts idxs) ∧
    (∃ f, flow g d ids ts bs true = .ok (.infinite f) ∧
      (∀ m, f (m + (batchList bs (onePassEmb g ts idxs)).length) = f m) ∧
      ((List.range (2 * (batchList bs (onePassEmb g ts idxs)).length)).map
          f).flatten
        = onePassEmb g ts idxs ++ onePassEmb g ts idxs) ∧
    (onePassEmb g ts idxs).length = ids.length := by
  refine ⟨⟨batchList bs (onePassEmb g ts idxs), ?_, batchList_flatten bs hbs _⟩,
    ⟨fun m => (batchList bs (onePassEmb g ts idxs)).getD
        (m % (batchList bs (onePassEmb g ts idxs)).length) [], ?_, ?_, ?_⟩, ?_⟩
  · exact flow_ok g d ids ts bs false idxs h hbs
  · exact flow_ok g d ids ts bs true idxs h hbs
  · intro m
    simp only [Nat.add_mod_right]
  · rw [repeat_two_passes, batchList_flatten bs hbs]
  · simp only [onePassEmb, List.length_map]
    exact nodeLookup_ok_length d ids idxs h

/-- Witness for C7 with one node, batch size 1. -/
theorem c7_repeat_semantics_witness :
    ((1 : ℕ) ≠ 0) ∧ nodeLookup [("a", 0)] ["a"] = .ok [0] ∧
    ((∃ batches, flow gExample [("a", 0)] ["a"] [] 1 false =
          .ok (.finite batches) ∧
        batches.flatten = onePassEmb gExample [] [0]) ∧
      (∃ f, flow gExample [("a", 0)] ["a"] [] 1 true = .ok (.infinite f) ∧
        (∀ m, f (m + (batchList 1 (onePassEmb gExample [] [0])).length) = f m) ∧
        ((List.range (2 * (batchList 1 (onePassEmb gExample [] [0])).length)).map
            f).flatten
          = onePassEmb gExample [] [0] ++ onePassEmb gExample [] [0]) ∧
      (onePassEmb gExample [] [0]).length = ["a"].length) :=
  ⟨by decide, rfl,
   c7_repeat_semantics gExample [("a", 0)] ["a"] [] 1 [0] (by decide) rfl⟩

/-- C8: the Laplacian built at construction is `diag(rowSums(A)) - A` with no
normalization; for every adjacency matrix with nonnegative weights every row
of it sums to zero, and it is symmetric exactly when the adjacency is. -/
theorem c8_laplacian {n : ℕ} (A : Matrix (Fin n) (Fin n) ℝ)
    (hA : ∀ i j, 0 ≤ A i j) :
    laplacian A = Matrix.diagonal (rowSums A) - A ∧
    (∀ i, ∑ j, laplacian A i j = 0) ∧
    ((laplacian A).IsSymm ↔ A.IsSymm) := by
  refine ⟨rfl, ?_, ?_⟩
  · intro i
    unfold laplacian rowSums
    simp [Matrix.sub_apply, Finset.sum_sub_distrib, Matrix.diagonal_apply]
  · constructor
    · intro hL
      have h1 : Matrix.transpose (Matrix.diagonal (rowSums A) - A) =
          Matrix.diagonal (rowSums A) - A := hL
      rw [Matrix.transpose_sub, Matrix.diagonal_transpose] at h1
      show Matrix.transpose A = A
      calc Matrix.transpose A
          = Matrix.diagonal (rowSums A) -
              (Matrix.diagonal (rowSums A) - Matrix.transpose A) :=
            (sub_sub_cancel _ _).symm
        _ = Matrix.diagonal (rowSums A) - (Matrix.diagonal (rowSums A) - A) :=
            by rw [h1]
        _ = A := sub_sub_cancel _ _
    · intro hAs
      show Matrix.transpose (laplacian A) = laplacian A
      unfold laplacian
      rw [Matrix.transpose_sub, Matrix.diagonal_transpose]
      rw [show Matrix.transpose A = A from hAs]

/-- Witness for C8 at the all-ones 2×2 adjacency matrix. -/
theorem c8_laplacian_witness :
    (∀ i j, (0 : ℝ) ≤ symMat2 i j) ∧
    (laplacian symMat2 = Matrix.diagonal (rowSums symMat2) - symMat2 ∧
      (∀ i, ∑ j, laplacian symMat2 i j = 0) ∧
      ((laplacian symMat2).IsSymm ↔ symMat2.IsSymm)) :=
  ⟨fun _ _ => zero_le_one, c8_laplacian symMat2 (fun _ _ => zero_le_one)⟩

/-- C9, counterexample: supplying the explicit empty scales list makes
construction raise — the list comprehension yields `[]` and `np.dstack([])`
fails with `ValueError` — so construction does not accept every explicit
float sequence without error. -/
theorem c9_counterexample :
    constructUes 1 1 (fun _ _ => 0) [] (.explicit []) 3 =
      .error npDstackEmptyMsg :=
  rfl

/-- C9 (amended): when scales is supplied as an explicit nonempty sequence,
construction accepts any float values — the statement quantifies over every
nonempty list `l`, including ones holding zero, negative, or unordered
entries — without raising any error, uses them verbatim to build the
wavelet-coefficient cache, and `num_scales` has no effect on the result; the
empty explicit sequence instead raises `ValueError` from `np.dstack([])`. -/
theorem c9_explicit_scales (N k : ℕ) (U : ℕ → ℕ → ℝ) (lam : List ℚ)
    (l : List ℝ) (numScales numScales' : ℕ) (hl : l ≠ []) :
    constructUes N k U lam (.explicit l) numScales =
      .ok (UesTensor N k U (fun j => ((lam.getD j 0 : ℚ) : ℝ)) l) ∧
    constructUes N k U lam (.explicit l) numScales =
      constructUes N k U lam (.explicit l) numScales' := by
  constructor
  · exact dstack_ues_ok N k U (fun j => ((lam.getD j 0 : ℚ) : ℝ)) l hl
  · rfl

/-- Witness for C9 at the explicit scale list `[-1, 0]`: a negative value and
zero, in decreasing order, with two different `num_scales` arguments. -/
theorem c9_explicit_scales_witness :
    ([(-1 : ℝ), 0] ≠ []) ∧
    (constructUes 2 1 (fun _ _ => 0) [] (.explicit [(-1 : ℝ), 0]) 3 =
        .ok (UesTensor 2 1 (fun _ _ => 0)
          (fun j => ((([] : List ℚ).getD j 0 : ℚ) : ℝ)) [(-1 : ℝ), 0]) ∧
      constructUes 2 1 (fun _ _ => 0) [] (.explicit [(-1 : ℝ), 0]) 3 =
        constructUes 2 1 (fun _ _ => 0) [] (.explicit [(-1 : ℝ), 0]) 7) :=
  ⟨List.cons_ne_nil _ _,
   c9_explicit_scales 2 1 (fun _ _ => 0) [] [(-1 : ℝ), 0] 3 7
     (List.cons_ne_nil _ _)⟩

/-- C10: the node-id lookup and the gathering of eigenvector rows happen
eagerly when `flow` is called (numpy indexing before
`Dataset.from_tensor_slices`): an unresolvable id makes the `flow` call
itself fail, returning no dataset at all; on success — all ids resolvable and
a positive batch size — the returned dataset is a fully precomputed batch
list (or its periodic repetition), so iterating it can never fail on node
lookup. -/
theorem c10_eager_lookup (g : GraphWaveGenerator) (d : List (String × ℕ))
    (ids : List String) (ts : List ℝ) (bs : ℕ) (rpt : Bool) :
    ((∃ id ∈ ids, dictGet d id = none) →
      ¬ ∃ r, flow g d ids ts bs rpt = .ok r) ∧
    (∀ idxs, nodeLookup d ids = .ok idxs → bs ≠ 0 →
      flow g d ids ts bs rpt = .ok
        (if rpt then
          FlowResult.infinite (fun m =>
            (batchList bs (onePassEmb g ts idxs)).getD
              (m % (batchList bs (onePassEmb g ts idxs)).length) [])
         else FlowResult.finite (batchList bs (onePassEmb g ts idxs)))) := by
  constructor
  · intro h hex
    obtain ⟨r, hr⟩ := hex
    have herr := nodeLookup_error_of_missing d ids h
    unfold flow at hr
    rw [herr] at hr
    exact Except.noConfusion hr
  · intro idxs hidxs hbs
    exact flow_ok g d ids ts bs rpt idxs hidxs hbs

/-- Witness for C10: a missing id fails the call; a resolvable one-node query
with batch size 1 returns the precomputed batch list. -/
theorem c10_eager_lookup_witness :
    ((∃ id ∈ ["b"], dictGet [("a", 0)] id = none) ∧
      ¬ ∃ r, flow gExample [("a", 0)] ["b"] [] 1 true = .ok r) ∧
    (nodeLookup [("a", 0)] ["a"] = .ok [0] ∧ (1 : ℕ) ≠ 0 ∧
      flow gExample [("a", 0)] ["a"] [] 1 false = .ok
        (FlowResult.finite (batchList 1 (onePassEmb gExample [] [0])))) :=
  ⟨⟨by decide,
    (c10_eager_lookup gExample [("a", 0)] ["b"] [] 1 true).1 (by decide)⟩,
   ⟨rfl, by decide,
    (c10_eager_lookup gExample [("a", 0)] ["a"] [] 1 false).2 [0] rfl
      (by decide)⟩⟩
